import Mathlib

/-!
# Verification of `downloadTransmission` (`src/main.py`)

Shallow embedding of the sequential segment-retrieval pipeline:

* `download_chunks` — the sequential retrieval loop (src/main.py lines 5-78),
  modelled as a fuelled recursion over an explicit filesystem (`Disk`) and an
  explicit remote endpoint (`Remote`).  `requests.get` either yields a response
  (status code + body bytes) or raises; the raise is modelled as the
  `FetchOutcome.transportError` constructor and surfaces as an
  `Except.error` result, exactly as an uncaught Python exception would.
* `create_concat_file` — the manifest builder (lines 81-112), modelled as the
  list of lines it writes.
* `merge_chunks_into_mp4` — the merge invoker (lines 115-137), with
  `subprocess.run(cmd, check=True)` modelled as a structured collaborator
  result (exit code plus the diagnostic text the child writes, which, with no
  capture requested, passes through to the parent's stderr).
* `main` — the driver (lines 140-182).

HTTP headers are not modelled separately: they are fixed for a whole run and
are absorbed into the `Remote` function (spec §9 advises modelling the
collaborators as structured interfaces).  `print` calls are ignored (out of
scope per spec §1).  Chunk indices are modelled as `Nat`: the spec's segment
identifiers are positive integers and every claim uses non-negative start
indices.
-/

/-! ## Decimal representation: `Nat.repr` is injective

Python's `f"{prefix}{i}{suffix}"` renders `i` in decimal; the Lean model uses
`Nat.repr`.  Distinct indices yield distinct segment names, which we prove by
decoding the digit string back to the number.
-/

/-- Numeric value of a decimal digit character. -/
def digitVal (c : Char) : Nat := c.toNat - 48

theorem digitVal_digitChar (d : Nat) (h : d < 10) :
    digitVal (Nat.digitChar d) = d := by
  interval_cases d <;> rfl

theorem toDigitsCore_append (b : Nat) :
    ∀ (fuel n : Nat) (ds : List Char),
      Nat.toDigitsCore b fuel n ds = Nat.toDigitsCore b fuel n [] ++ ds := by
  intro fuel
  induction fuel with
  | zero => intro n ds; simp [Nat.toDigitsCore]
  | succ fuel ih =>
    intro n ds
    simp only [Nat.toDigitsCore]
    by_cases h : n / b = 0
    · simp [h]
    · simp only [h, if_false]
      rw [ih (n / b) (Nat.digitChar (n % b) :: ds),
          ih (n / b) (Nat.digitChar (n % b) :: ([] : List Char))]
      simp

theorem toDigitsCore_fuel (b : Nat) (hb : 1 < b) :
    ∀ (f₁ n f₂ : Nat) (ds : List Char), n < f₁ → n < f₂ →
      Nat.toDigitsCore b f₁ n ds = Nat.toDigitsCore b f₂ n ds := by
  intro f₁
  induction f₁ with
  | zero => intro n f₂ ds h1 _; omega
  | succ f₁ ih =>
    intro n f₂ ds h1 h2
    cases f₂ with
    | zero => omega
    | succ f₂ =>
      simp only [Nat.toDigitsCore]
      by_cases h : n / b = 0
      · simp [h]
      · simp only [h, if_false]
        have hn : 0 < n := by
          rcases Nat.eq_zero_or_pos n with h0 | h0
          · exfalso; apply h; simp [h0]
          · exact h0
        have hlt : n / b < n := Nat.div_lt_self hn hb
        exact ih (n / b) f₂ _ (by omega) (by omega)

/-- Decode a list of decimal digit characters back to a number. -/
def digitsVal (l : List Char) : Nat := l.foldl (fun a c => 10 * a + digitVal c) 0

theorem digitsVal_append_single (l : List Char) (c : Char) :
    digitsVal (l ++ [c]) = 10 * digitsVal l + digitVal c := by
  simp [digitsVal, List.foldl_append]

theorem digitsVal_toDigits (n : Nat) : digitsVal (Nat.toDigits 10 n) = n := by
  induction n using Nat.strong_induction_on with
  | _ n ih =>
    show digitsVal (Nat.toDigitsCore 10 (n + 1) n []) = n
    simp only [Nat.toDigitsCore]
    by_cases h : n / 10 = 0
    · have hn : n < 10 := by omega
      simp only [h, if_pos rfl]
      simp [digitsVal, digitVal_digitChar (n % 10) (Nat.mod_lt _ (by norm_num))]
      omega
    · have hn : 0 < n := by
        rcases Nat.eq_zero_or_pos n with h0 | h0
        · exfalso; apply h; simp [h0]
        · exact h0
      have hlt : n / 10 < n := Nat.div_lt_self hn (by norm_num)
      simp only [h, if_false]
      rw [toDigitsCore_append 10 n (n / 10) [Nat.digitChar (n % 10)],
          toDigitsCore_fuel 10 (by norm_num) n (n / 10) (n / 10 + 1) [] hlt
            (Nat.lt_succ_self _)]
      rw [digitsVal_append_single]
      have hrec := ih (n / 10) hlt
      simp only [Nat.toDigits] at hrec
      rw [hrec]
      rw [digitVal_digitChar (n % 10) (Nat.mod_lt _ (by norm_num))]
      omega

theorem Nat_repr_injective {m n : Nat} (h : Nat.repr m = Nat.repr n) : m = n := by
  have hd : Nat.toDigits 10 m = Nat.toDigits 10 n := by
    have := congrArg String.data h
    simpa [Nat.repr, List.asString] using this
  have := congrArg digitsVal hd
  rwa [digitsVal_toDigits, digitsVal_toDigits] at this

/-! ## String cancellation helpers -/

theorem string_append_cancel_left {a x y : String} (h : a ++ x = a ++ y) :
    x = y := by
  apply String.ext
  have hd := congrArg String.data h
  simp only [String.data_append] at hd
  exact List.append_cancel_left hd

theorem string_append_cancel_right {x y b : String} (h : x ++ b = y ++ b) :
    x = y := by
  apply String.ext
  have hd := congrArg String.data h
  simp only [String.data_append] at hd
  exact List.append_cancel_right hd

theorem string_sandwich_inj {a b x y : String} (h : a ++ x ++ b = a ++ y ++ b) :
    x = y :=
  string_append_cancel_left (string_append_cancel_right h)

/-! ## Data model -/

/-- The object `requests.get` returns: status code and body bytes
(`response.status_code`, `response.content`). -/
structure Response where
  status_code : Nat
  content : List Nat
deriving DecidableEq, Repr

/-- Outcome of one `requests.get` call: either a response object, or a raised
transport-level exception (connection refused, timeout, DNS failure, ...). -/
inductive FetchOutcome where
  | response (r : Response)
  | transportError
deriving DecidableEq, Repr

/-- The remote series, as a map from URL to fetch outcome.  The HTTP headers
are fixed for a run and absorbed into this function. -/
abbrev Remote := String → FetchOutcome

/-- The local filesystem: path to file content (`none` = no file).
`os.path.exists p` is `(disk p).isSome`. -/
abbrev Disk := String → Option (List Nat)

/-- `subprocess.CalledProcessError`: the exception raised by
`subprocess.run(cmd, check=True)` on a non-zero exit.  `output`/`stderr` hold
captured streams and are `None` when the call did not request capture. -/
structure CalledProcessError where
  returncode : Int
  cmd : List String
  output : Option String
  stderr : Option String
deriving DecidableEq, Repr

/-- Uncaught Python exceptions the program can raise. -/
inductive PyError where
  | requestException
  | processError (e : CalledProcessError)
deriving DecidableEq, Repr

/-- The external muxing tool as a black-box collaborator: its exit code and
the diagnostic text it writes to its stderr stream. -/
structure ToolRun where
  exitCode : Int
  diagnostic : String
deriving DecidableEq, Repr

/-- `subprocess.CompletedProcess` (the fields the program could observe). -/
structure CompletedProcess where
  returncode : Int
  stdout : Option String
  stderr : Option String
deriving DecidableEq, Repr

/-! ## Naming (src/main.py lines 45-47, 109) -/

/-- `f"{chunk_prefix}{i}{chunk_suffix}"` (line 45 and line 109). -/
def chunkName ( chunk_prefix : String) (i : Nat) (chunk_suffix : String) : String :=
  chunk_prefix ++ Nat.repr i ++ chunk_suffix

/-- `f"{base_url}{chunk_name}"` (line 46). -/
def chunkUrl (base_url chunk_prefix chunk_suffix : String) (i : Nat) : String :=
  base_url ++ chunkName chunk_prefix i chunk_suffix

/-- `os.path.join(output_dir, chunk_name)` (line 47); the second component is
relative, so the join is directory, separator, name. -/
def chunkPath (output_dir chunk_prefix chunk_suffix : String) (i : Nat) : String :=
  output_dir ++ "/" ++ chunkName chunk_prefix i chunk_suffix

theorem chunkName_inj {p s : String} {i j : Nat}
    (h : chunkName p i s = chunkName p j s) : i = j :=
  Nat_repr_injective (string_sandwich_inj h)

theorem chunkPath_inj {d p s : String} {i j : Nat}
    (h : chunkPath d p s i = chunkPath d p s j) : i = j :=
  chunkName_inj (string_append_cancel_left (x := chunkName p i s) h)

theorem chunkUrl_inj {b p s : String} {i j : Nat}
    (h : chunkUrl b p s i = chunkUrl b p s j) : i = j :=
  chunkName_inj (string_append_cancel_left h)

/-! ## Filesystem writes (src/main.py lines 64-65) -/

/-- Point update of the filesystem. -/
def writeBytes (disk : Disk) (path : String) (content : List Nat) : Disk :=
  fun p => if p = path then some content else disk p

/-- `open(output_file, "wb")` (line 64): creating/truncating the file.  From
this moment the path exists, with no bytes yet. -/
def open_wb (disk : Disk) (path : String) : Disk :=
  writeBytes disk path []

/-- `with open(output_file, "wb") as f: f.write(response.content)`
(lines 64-65): truncate, then write the body. -/
def save_chunk (disk : Disk) (path : String) (content : List Nat) : Disk :=
  writeBytes (open_wb disk path) path content

/-- The observable filesystem states during lines 64-65, in order: after the
`open` (file present, truncated) and after the `write` (file complete). -/
def save_chunk_states (disk : Disk) (path : String) (content : List Nat) :
    List Disk :=
  [open_wb disk path, save_chunk disk path content]

theorem writeBytes_same (disk : Disk) (path : String) (content : List Nat) :
    writeBytes disk path content path = some content := by
  simp [writeBytes]

theorem writeBytes_other (disk : Disk) (path : String) (content : List Nat)
    {q : String} (h : q ≠ path) : writeBytes disk path content q = disk q := by
  simp [writeBytes, h]

theorem save_chunk_same (disk : Disk) (path : String) (content : List Nat) :
    save_chunk disk path content path = some content := by
  simp [save_chunk, writeBytes_same]

theorem save_chunk_other (disk : Disk) (path : String) (content : List Nat)
    {q : String} (h : q ≠ path) : save_chunk disk path content q = disk q := by
  simp [save_chunk, open_wb, writeBytes, h]

/-! ## The sequential retrieval loop (src/main.py lines 5-78) -/

/-- Everything observable about one run of `download_chunks`: the Python
return value (or the uncaught exception), the final filesystem, and, as
instrumentation, the indices for which `requests.get` was issued (`fetched`),
the indices the loop examined at all (`probed`), the indices whose files were
saved (`written`), and the loop variables at exit. -/
structure LoopOutcome where
  result : Except PyError Nat
  disk : Disk
  fetched : List Nat
  probed : List Nat
  written : List Nat
  finalChunkNumber : Nat
  finalDownloadedAny : Bool

/-- The `while True:` loop of lines 44-68 together with the return logic of
lines 70-78, as a fuelled recursion (the Python loop is unbounded; `none`
means the fuel ran out before the run terminated).  Branches, in source
order: line 50 skip of an existing file; line 56 fetch (a raised transport
exception propagates, line 56); lines 59-61 break on a non-200 status, which
reaches the return logic of lines 70-78; lines 64-68 save and advance. -/
def download_chunks_loop (remote : Remote)
    (base_url chunk_prefix chunk_suffix output_dir : String)
    (disk : Disk) (chunk_number : Nat) (downloaded_any : Bool)
    (fetched probed written : List Nat) : Nat → Option LoopOutcome
  | 0 => none
  | fuel + 1 =>
    let chunk_name := chunkName chunk_prefix chunk_number chunk_suffix
    let url := base_url ++ chunk_name
    let output_file := output_dir ++ "/" ++ chunk_name
    if (disk output_file).isSome then
      download_chunks_loop remote base_url chunk_prefix chunk_suffix output_dir
        disk (chunk_number + 1) downloaded_any
        fetched (probed ++ [chunk_number]) written fuel
    else
      match remote url with
      | .transportError =>
          some { result := .error .requestException, disk := disk,
                 fetched := fetched ++ [chunk_number],
                 probed := probed ++ [chunk_number], written := written,
                 finalChunkNumber := chunk_number,
                 finalDownloadedAny := downloaded_any }
      | .response resp =>
          if resp.status_code ≠ 200 then
            some { result := .ok (if downloaded_any then chunk_number - 1 else 0),
                   disk := disk,
                   fetched := fetched ++ [chunk_number],
                   probed := probed ++ [chunk_number], written := written,
                   finalChunkNumber := chunk_number,
                   finalDownloadedAny := downloaded_any }
          else
            download_chunks_loop remote base_url chunk_prefix chunk_suffix
              output_dir (save_chunk disk output_file resp.content)
              (chunk_number + 1) true
              (fetched ++ [chunk_number]) (probed ++ [chunk_number])
              (written ++ [chunk_number]) fuel

/-- `download_chunks` (src/main.py lines 5-78).  `os.makedirs(output_dir,
exist_ok=True)` (line 38) creates the directory and touches no file, so it
leaves the `Disk` unchanged.  Initial state per lines 39-40:
`chunk_number = start_chunk`, `downloaded_any = False`. -/
def download_chunks (remote : Remote)
    (base_url chunk_prefix chunk_suffix output_dir : String)
    (disk : Disk) (start_chunk : Nat) (fuel : Nat) : Option LoopOutcome :=
  download_chunks_loop remote base_url chunk_prefix chunk_suffix output_dir
    disk start_chunk false [] [] [] fuel

/-! ## Manifest builder (src/main.py lines 81-112) -/

/-- `create_concat_file` (lines 81-112): returns the manifest path
(`os.path.join(output_dir, "file_list.txt")`, line 104) and the list of lines
written by the loop of lines 108-110 — for `i in range(1, last_chunk + 1)`
one line `file '{chunk_name}'` per index (each line newline-terminated in the
file; the trailing newline is left implicit here). -/
def create_concat_file (output_dir : String) (last_chunk : Nat)
    ( chunk_prefix chunk_suffix : String) : String × List String :=
  (output_dir ++ "/" ++ "file_list.txt",
   (List.range last_chunk).map (fun j =>
     "file \x27" ++ chunkName chunk_prefix (j + 1) chunk_suffix ++ "\x27"))

/-! ## Merge invoker (src/main.py lines 115-137) -/

/-- `subprocess.run(cmd, check=True)` with no capture requested: the child's
diagnostic text passes through to the parent's stderr (second component).
With `check=True` a non-zero exit raises `CalledProcessError`, whose
`output`/`stderr` are `None` because nothing was captured. -/
def subprocess_run (tool : ToolRun) (cmd : List String) (check : Bool) :
    (Except CalledProcessError CompletedProcess) × String :=
  if check && tool.exitCode != 0 then
    (.error { returncode := tool.exitCode, cmd := cmd,
              output := none, stderr := none }, tool.diagnostic)
  else
    (.ok { returncode := tool.exitCode, stdout := none, stderr := none },
     tool.diagnostic)

/-- `merge_chunks_into_mp4` (lines 115-137): builds the ffmpeg command line
(lines 128-135) and runs it with `check=True` (line 136).  Returns the Python
outcome (normal return or raised `CalledProcessError`) plus the text that
passed through to the parent's stderr. -/
def merge_chunks_into_mp4 (tool : ToolRun)
    (concat_file_path output_mp4 : String) :
    (Except CalledProcessError Unit) × String :=
  let ffmpeg_command := ["ffmpeg", "-f", "concat", "-safe", "0",
                         "-i", concat_file_path, "-c", "copy", output_mp4]
  match subprocess_run tool ffmpeg_command true with
  | (.error e, d) => (.error e, d)
  | (.ok _, d) => (.ok (), d)

/-! ## Driver (src/main.py lines 140-182) -/

/-- Everything observable about one run of `main`: the Python outcome and, as
instrumentation, whether the manifest builder and the merge invoker ran. -/
structure MainOutcome where
  result : Except PyError Unit
  builtManifest : Bool
  invokedMerge : Bool

namespace MainPy

/-- `main` (lines 140-182), with its literal configuration (lines 144-152):
download (lines 158-164, `start_chunk` left at its default `1`), the
zero-outcome guard (lines 167-169), the manifest build (lines 172-177) and
the merge (line 180).  An exception from a stage propagates out.  (Namespaced
because a bare top-level `main` has a reserved signature in Lean.) -/
def main (remote : Remote) (disk : Disk) (tool : ToolRun) (fuel : Nat) :
    Option MainOutcome :=
  match download_chunks remote "https://SEU_URL_DE_CHUNKS_AQUI/" "video" ".ts"
      "./chunks" disk 1 fuel with
  | none => none
  | some out =>
    match out.result with
    | .error e =>
        some { result := .error e, builtManifest := false, invokedMerge := false }
    | .ok last_chunk_downloaded =>
        if last_chunk_downloaded == 0 then
          some { result := .ok (), builtManifest := false, invokedMerge := false }
        else
          let cf := create_concat_file "./chunks" last_chunk_downloaded
            "video" ".ts"
          match merge_chunks_into_mp4 tool cf.1 "minha_transmissao.mp4" with
          | (.error e, _) =>
              some { result := .error (.processError e),
                     builtManifest := true, invokedMerge := true }
          | (.ok _, _) =>
              some { result := .ok (), builtManifest := true, invokedMerge := true }

end MainPy

/-! ## Loop run lemmas -/

/-- `[a, a+1, ..., a+len-1]`. -/
def rangeFrom (a len : Nat) : List Nat := (List.range len).map (a + ·)

theorem rangeFrom_zero (a : Nat) : rangeFrom a 0 = [] := rfl

theorem rangeFrom_succ_left (a n : Nat) :
    rangeFrom a (n + 1) = a :: rangeFrom (a + 1) n := by
  simp only [rangeFrom, List.range_succ_eq_map, List.map_cons, List.map_map]
  refine List.cons_eq_cons.mpr ⟨by omega, ?_⟩
  apply List.map_congr_left
  intro j _
  simp [Function.comp]
  omega

theorem rangeFrom_nodup (a len : Nat) : (rangeFrom a len).Nodup :=
  List.Nodup.map (fun _ _ h => by omega) (List.nodup_range len)

/-- Did a fetch deliver the resource (HTTP 200 with a response object)? -/
def fetchOk : FetchOutcome → Bool
  | .response r => r.status_code == 200
  | .transportError => false

/-- The filesystem after saving the segments `start, ..., start + n - 1`, in
loop order. -/
def writeSeq (output_dir chunk_prefix chunk_suffix : String)
    (content : Nat → List Nat) (disk : Disk) (start : Nat) : Nat → Disk
  | 0 => disk
  | n + 1 =>
      writeSeq output_dir chunk_prefix chunk_suffix content
        (save_chunk disk (chunkPath output_dir chunk_prefix chunk_suffix start)
          (content start))
        (start + 1) n

theorem writeSeq_at_ge (d p s : String) (content : Nat → List Nat) :
    ∀ (N : Nat) (disk : Disk) (start : Nat) (q : String),
      (∀ j, j < N → q ≠ chunkPath d p s (start + j)) →
      writeSeq d p s content disk start N q = disk q := by
  intro N
  induction N with
  | zero => intro disk start q _; rfl
  | succ N ih =>
    intro disk start q hq
    show writeSeq d p s content
      (save_chunk disk (chunkPath d p s start) (content start)) (start + 1) N q
      = disk q
    have hq' : ∀ j, j < N → q ≠ chunkPath d p s (start + 1 + j) := by
      intro j hj
      rw [show start + 1 + j = start + (j + 1) by omega]
      exact hq (j + 1) (by omega)
    rw [ih _ (start + 1) q hq']
    exact save_chunk_other _ _ _ (by simpa using hq 0 (by omega))

theorem writeSeq_at_lt (d p s : String) (content : Nat → List Nat) :
    ∀ (N : Nat) (disk : Disk) (start j : Nat), j < N →
      writeSeq d p s content disk start N (chunkPath d p s (start + j)) =
        some (content (start + j)) := by
  intro N
  induction N with
  | zero => intro disk start j hj; omega
  | succ N ih =>
    intro disk start j hj
    show writeSeq d p s content
      (save_chunk disk (chunkPath d p s start) (content start)) (start + 1) N
      (chunkPath d p s (start + j)) = some (content (start + j))
    cases j with
    | zero =>
      rw [writeSeq_at_ge d p s content N _ (start + 1) _ (fun j' hj' h => by
        have := chunkPath_inj h
        omega)]
      simpa using save_chunk_same disk (chunkPath d p s start) (content start)
    | succ j =>
      have hj' : j < N := by omega
      have := ih (save_chunk disk (chunkPath d p s start) (content start))
        (start + 1) j hj'
      rw [show start + (j + 1) = start + 1 + j by omega]
      exact this

theorem loop_stop_status (remote : Remote) (b p s d : String) (disk : Disk)
    (start : Nat) (da : Bool) (fetched probed written : List Nat) (fuel : Nat)
    (r : Response)
    (hd : (disk (chunkPath d p s start)).isSome = false)
    (hr : remote (chunkUrl b p s start) = .response r)
    (hs : r.status_code ≠ 200) :
    download_chunks_loop remote b p s d disk start da fetched probed written
      (fuel + 1) =
    some { result := .ok (if da then start - 1 else 0), disk := disk,
           fetched := fetched ++ [start], probed := probed ++ [start],
           written := written, finalChunkNumber := start,
           finalDownloadedAny := da } := by
  simp only [chunkPath] at hd
  simp only [chunkUrl] at hr
  simp [download_chunks_loop, hd, hr, hs]

theorem loop_stop_transport (remote : Remote) (b p s d : String) (disk : Disk)
    (start : Nat) (da : Bool) (fetched probed written : List Nat) (fuel : Nat)
    (hd : (disk (chunkPath d p s start)).isSome = false)
    (hr : remote (chunkUrl b p s start) = .transportError) :
    download_chunks_loop remote b p s d disk start da fetched probed written
      (fuel + 1) =
    some { result := .error .requestException, disk := disk,
           fetched := fetched ++ [start], probed := probed ++ [start],
           written := written, finalChunkNumber := start,
           finalDownloadedAny := da } := by
  simp only [chunkPath] at hd
  simp only [chunkUrl] at hr
  simp [download_chunks_loop, hd, hr]

theorem loop_skip_run (remote : Remote) (b p s d : String) :
    ∀ (M : Nat) (disk : Disk) (start : Nat) (da : Bool)
      (fetched probed written : List Nat) (fuel : Nat),
      (∀ j, j < M → (disk (chunkPath d p s (start + j))).isSome = true) →
      M ≤ fuel →
      download_chunks_loop remote b p s d disk start da fetched probed written
        fuel =
      download_chunks_loop remote b p s d disk (start + M) da fetched
        (probed ++ rangeFrom start M) written (fuel - M) := by
  intro M
  induction M with
  | zero => intro disk start da fetched probed written fuel _ _; simp [rangeFrom_zero]
  | succ M ih =>
    intro disk start da fetched probed written fuel hd hfuel
    cases fuel with
    | zero => omega
    | succ fuel =>
      have h0 : (disk (chunkPath d p s start)).isSome = true := by
        simpa using hd 0 (by omega)
      simp only [chunkPath] at h0
      rw [show download_chunks_loop remote b p s d disk start da fetched probed
            written (fuel + 1) =
          download_chunks_loop remote b p s d disk (start + 1) da fetched
            (probed ++ [start]) written fuel by
        simp [download_chunks_loop, h0]]
      have hd' : ∀ j, j < M →
          (disk (chunkPath d p s (start + 1 + j))).isSome = true := by
        intro j hj
        rw [show start + 1 + j = start + (j + 1) by omega]
        exact hd (j + 1) (by omega)
      rw [ih disk (start + 1) da fetched (probed ++ [start]) written fuel hd'
        (by omega)]
      rw [rangeFrom_succ_left,
          show start + 1 + M = start + (M + 1) by omega,
          show probed ++ [start] ++ rangeFrom (start + 1) M =
            probed ++ (start :: rangeFrom (start + 1) M) by simp,
          Nat.succ_sub_succ]

theorem loop_fetch_run (remote : Remote) (b p s d : String)
    (content : Nat → List Nat) :
    ∀ (N : Nat) (disk : Disk) (start : Nat) (da : Bool)
      (fetched probed written : List Nat) (fuel : Nat),
      (∀ j, j < N → disk (chunkPath d p s (start + j)) = none) →
      (∀ j, j < N → remote (chunkUrl b p s (start + j)) =
        .response ⟨200, content (start + j)⟩) →
      N ≤ fuel →
      download_chunks_loop remote b p s d disk start da fetched probed written
        fuel =
      download_chunks_loop remote b p s d
        (writeSeq d p s content disk start N) (start + N)
        (da || decide (0 < N)) (fetched ++ rangeFrom start N)
        (probed ++ rangeFrom start N) (written ++ rangeFrom start N)
        (fuel - N) := by
  intro N
  induction N with
  | zero =>
    intro disk start da fetched probed written fuel _ _ _
    simp [rangeFrom_zero, writeSeq]
  | succ N ih =>
    intro disk start da fetched probed written fuel hd hs hfuel
    cases fuel with
    | zero => omega
    | succ fuel =>
      have h0 : disk (chunkPath d p s start) = none := by
        simpa using hd 0 (by omega)
      have hr0 : remote (chunkUrl b p s start) =
          .response ⟨200, content start⟩ := by
        simpa using hs 0 (by omega)
      simp only [chunkPath] at h0
      simp only [chunkUrl] at hr0
      rw [show download_chunks_loop remote b p s d disk start da fetched probed
            written (fuel + 1) =
          download_chunks_loop remote b p s d
            (save_chunk disk (chunkPath d p s start) (content start))
            (start + 1) true (fetched ++ [start]) (probed ++ [start])
            (written ++ [start]) fuel by
        simp [download_chunks_loop, h0, hr0, chunkPath]]
      have hd' : ∀ j, j < N →
          (save_chunk disk (chunkPath d p s start) (content start))
            (chunkPath d p s (start + 1 + j)) = none := by
        intro j hj
        rw [save_chunk_other _ _ _ (fun h => by
          have := chunkPath_inj h
          omega)]
        rw [show start + 1 + j = start + (j + 1) by omega]
        exact hd (j + 1) (by omega)
      have hs' : ∀ j, j < N → remote (chunkUrl b p s (start + 1 + j)) =
          .response ⟨200, content (start + 1 + j)⟩ := by
        intro j hj
        rw [show start + 1 + j = start + (j + 1) by omega]
        exact hs (j + 1) (by omega)
      rw [ih _ (start + 1) true (fetched ++ [start]) (probed ++ [start])
        (written ++ [start]) fuel hd' hs' (by omega)]
      rw [rangeFrom_succ_left,
          show start + 1 + N = start + (N + 1) by omega]
      simp only [show ∀ l : List Nat, l ++ [start] ++ rangeFrom (start + 1) N =
            l ++ (start :: rangeFrom (start + 1) N) by intro l; simp,
          Nat.succ_sub_succ]
      simp [writeSeq]

/-! ## Loop invariants (fuel induction) -/

theorem loop_written_prefix (remote : Remote) (b p s d : String) :
    ∀ (fuel : Nat) (disk : Disk) (c : Nat) (da : Bool)
      (fetched probed written : List Nat) (out : LoopOutcome),
      download_chunks_loop remote b p s d disk c da fetched probed written fuel
        = some out →
      ∃ t, out.written = written ++ t := by
  intro fuel
  induction fuel with
  | zero =>
    intro disk c da fetched probed written out h
    simp [download_chunks_loop] at h
  | succ fuel ih =>
    intro disk c da fetched probed written out h
    simp only [download_chunks_loop] at h
    split at h
    · exact ih _ _ _ _ _ _ _ h
    · split at h
      · cases h
        exact ⟨[], by simp⟩
      · split at h
        · cases h
          exact ⟨[], by simp⟩
        · obtain ⟨t, ht⟩ := ih _ _ _ _ _ _ _ h
          exact ⟨[c] ++ t, by simpa [List.append_assoc] using ht⟩

theorem loop_result_ok_shape (remote : Remote) (b p s d : String) :
    ∀ (fuel : Nat) (disk : Disk) (c : Nat) (da : Bool)
      (fetched probed written : List Nat) (out : LoopOutcome) (r : Nat),
      download_chunks_loop remote b p s d disk c da fetched probed written fuel
        = some out →
      out.result = .ok r →
      r = (if out.finalDownloadedAny then out.finalChunkNumber - 1 else 0) := by
  intro fuel
  induction fuel with
  | zero =>
    intro disk c da fetched probed written out r h _
    simp [download_chunks_loop] at h
  | succ fuel ih =>
    intro disk c da fetched probed written out r h hr
    simp only [download_chunks_loop] at h
    split at h
    · exact ih _ _ _ _ _ _ _ _ h hr
    · split at h
      · cases h
        simp at hr
      · split at h
        · cases h
          simp only [Except.ok.injEq] at hr
          simpa using hr.symm
        · exact ih _ _ _ _ _ _ _ _ h hr

theorem loop_finalDA (remote : Remote) (b p s d : String) :
    ∀ (fuel : Nat) (disk : Disk) (c : Nat) (da : Bool)
      (fetched probed written : List Nat) (out : LoopOutcome),
      download_chunks_loop remote b p s d disk c da fetched probed written fuel
        = some out →
      (out.finalDownloadedAny = true ↔
        da = true ∨ written.length < out.written.length) := by
  intro fuel
  induction fuel with
  | zero =>
    intro disk c da fetched probed written out h
    simp [download_chunks_loop] at h
  | succ fuel ih =>
    intro disk c da fetched probed written out h
    simp only [download_chunks_loop] at h
    split at h
    · exact ih _ _ _ _ _ _ _ h
    · split at h
      · cases h
        simp
      · split at h
        · cases h
          simp
        · have hw := loop_written_prefix remote b p s d fuel _ _ _ _ _ _ _ h
          have hda := ih _ _ _ _ _ _ _ h
          have hDAtrue : out.finalDownloadedAny = true := hda.mpr (Or.inl rfl)
          rw [hDAtrue]
          constructor
          · intro _
            right
            obtain ⟨t, ht⟩ := hw
            rw [ht]
            simp
          · intro _
            rfl

/-- During a run, the file of every index the loop has not reached yet is
exactly as in the initial filesystem (writes only touch already-passed
indices), so the probed indices and the termination point can be classified
against the initial filesystem `disk₀` and the remote. -/
theorem loop_probed_char (remote : Remote) (b p s d : String) :
    ∀ (fuel : Nat) (disk disk₀ : Disk) (c : Nat) (da : Bool)
      (fetched probed written : List Nat) (out : LoopOutcome),
      (∀ i, c ≤ i → disk (chunkPath d p s i) = disk₀ (chunkPath d p s i)) →
      download_chunks_loop remote b p s d disk c da fetched probed written fuel
        = some out →
      c ≤ out.finalChunkNumber ∧
      out.probed = probed ++ rangeFrom c (out.finalChunkNumber + 1 - c) ∧
      (∀ i, c ≤ i → i < out.finalChunkNumber →
        (disk₀ (chunkPath d p s i)).isSome = true ∨
          fetchOk (remote (chunkUrl b p s i)) = true) ∧
      (disk₀ (chunkPath d p s out.finalChunkNumber)).isSome = false ∧
      fetchOk (remote (chunkUrl b p s out.finalChunkNumber)) = false := by
  intro fuel
  induction fuel with
  | zero =>
    intro disk disk₀ c da fetched probed written out _ h
    simp [download_chunks_loop] at h
  | succ fuel ih =>
    intro disk disk₀ c da fetched probed written out hstable h
    simp only [download_chunks_loop] at h
    split at h
    case isTrue hex =>
      have hst' : ∀ i, c + 1 ≤ i →
          disk (chunkPath d p s i) = disk₀ (chunkPath d p s i) :=
        fun i hi => hstable i (by omega)
      obtain ⟨h1, h2, h3, h4, h5⟩ :=
        ih disk disk₀ (c + 1) da fetched (probed ++ [c]) written out hst' h
      refine ⟨by omega, ?_, ?_, h4, h5⟩
      · rw [h2, show out.finalChunkNumber + 1 - c =
            (out.finalChunkNumber + 1 - (c + 1)) + 1 by omega,
          rangeFrom_succ_left]
        simp
      · intro i hci hifc
        rcases Nat.eq_or_lt_of_le hci with hceq | hlt
        · left
          rw [← hceq, ← hstable c le_rfl]
          have : (disk (chunkPath d p s c)).isSome = true := hex
          exact this
        · exact h3 i (by omega) hifc
    case isFalse hex =>
      have hex' : (disk₀ (chunkPath d p s c)).isSome = false := by
        rw [← hstable c le_rfl]
        simpa using hex
      split at h
      case h_1 heq =>
        cases h
        refine ⟨le_rfl, ?_, ?_, hex', ?_⟩
        · simp [show c + 1 - c = 1 by omega, rangeFrom, show List.range 1 = [0] from rfl]
        · intro i h1 h2
          have h2' : i < c := h2
          omega
        · have : remote (chunkUrl b p s c) = .transportError := heq
          rw [this]
          rfl
      case h_2 resp heq =>
        split at h
        case isTrue hne =>
          cases h
          refine ⟨le_rfl, ?_, ?_, hex', ?_⟩
          · simp [show c + 1 - c = 1 by omega, rangeFrom, show List.range 1 = [0] from rfl]
          · intro i h1 h2
            have h2' : i < c := h2
            omega
          · have : remote (chunkUrl b p s c) = .response resp := heq
            rw [this]
            simp [fetchOk, hne]
        case isFalse hne =>
          have hst' : ∀ i, c + 1 ≤ i →
              (save_chunk disk (d ++ "/" ++ chunkName p c s) resp.content)
                (chunkPath d p s i) = disk₀ (chunkPath d p s i) := by
            intro i hi
            rw [save_chunk_other _ _ _ (fun hq => by
              have : i = c := chunkPath_inj hq
              omega)]
            exact hstable i (by omega)
          obtain ⟨h1, h2, h3, h4, h5⟩ :=
            ih _ disk₀ (c + 1) true (fetched ++ [c]) (probed ++ [c])
              (written ++ [c]) out hst' h
          refine ⟨by omega, ?_, ?_, h4, h5⟩
          · rw [h2, show out.finalChunkNumber + 1 - c =
                (out.finalChunkNumber + 1 - (c + 1)) + 1 by omega,
              rangeFrom_succ_left]
            simp
          · intro i hci hifc
            rcases Nat.eq_or_lt_of_le hci with hceq | hlt
            · right
              have : remote (chunkUrl b p s c) = .response resp := heq
              rw [← hceq, this]
              simp only [fetchOk]
              have h200 : resp.status_code = 200 := by
                by_contra hc
                exact hne hc
              simp [h200]
            · exact h3 i (by omega) hifc

/-! ## Claim theorems -/

/-- Empty output directory: no files at all. -/
def diskEmpty : Disk := fun _ => none

/-- Demo segment bodies for witnesses. -/
def contentDemo : Nat → List Nat := fun i => [i]

/-- Demo remote series: segments 1 and 2 exist, everything else is 404. -/
def remoteDemo : Remote := fun u =>
  if u = chunkUrl "B/" "video" ".ts" 1 then .response ⟨200, contentDemo 1⟩
  else if u = chunkUrl "B/" "video" ".ts" 2 then .response ⟨200, contentDemo 2⟩
  else .response ⟨404, []⟩

/-- **C1.**  For every start index and every remote series in which the
fetches at indices `start, ..., start + N - 1` succeed (HTTP 200) and the
fetch at index `start + N` fails with a non-success status, with no segment
files pre-existing in the output directory, `download_chunks` returns
`start + N - 1` if `N > 0` and returns `0` if `N = 0`.  (A fetch that fails
by raising a transport-level exception does not produce a return value at
all; that mode is the subject of C6.) -/
theorem C1_retrieval_outcome (remote : Remote) (b p s d : String)
    (disk : Disk) (start N fuel : Nat) (content : Nat → List Nat)
    (r : Response)
    (hempty : ∀ i, disk (chunkPath d p s i) = none)
    (hs : ∀ j, j < N → remote (chunkUrl b p s (start + j)) =
      .response ⟨200, content (start + j)⟩)
    (hfail : remote (chunkUrl b p s (start + N)) = .response r)
    (hr : r.status_code ≠ 200)
    (hfuel : N < fuel) :
    ∃ out, download_chunks remote b p s d disk start fuel = some out ∧
      out.result = .ok (if N = 0 then 0 else start + N - 1) := by
  have hd2 : ((writeSeq d p s content disk start N)
      (chunkPath d p s (start + N))).isSome = false := by
    rw [writeSeq_at_ge d p s content N disk start _ (fun j hj hq => by
      have := chunkPath_inj hq
      omega)]
    rw [hempty (start + N)]
    rfl
  obtain ⟨fuel', hf'⟩ : ∃ f, fuel - N = f + 1 := ⟨fuel - N - 1, by omega⟩
  unfold download_chunks
  rw [loop_fetch_run remote b p s d content N disk start false [] [] [] fuel
      (fun j _ => hempty (start + j)) hs (by omega),
    hf',
    loop_stop_status remote b p s d _ (start + N) _ _ _ _ fuel' r hd2 hfail hr]
  refine ⟨_, rfl, ?_⟩
  simp only
  by_cases h0 : N = 0
  · subst h0
    simp
  · simp [h0, Nat.pos_of_ne_zero h0]

/-- Witness for C1 at `start = 1`, `N = 2`: segments 1-2 succeed, 3 is 404;
the run returns 2. -/
theorem C1_retrieval_outcome_witness :
    ∃ out, download_chunks remoteDemo "B/" "video" ".ts" "./chunks" diskEmpty
        1 4 = some out ∧
      out.result = .ok (if 2 = 0 then 0 else 1 + 2 - 1) :=
  C1_retrieval_outcome remoteDemo "B/" "video" ".ts" "./chunks" diskEmpty 1 2 4
    contentDemo ⟨404, []⟩ (fun _ => rfl) (by decide) (by decide) (by decide)
    (by decide)

/-- A filesystem already holding segment 1 at the default layout. -/
def diskWithSeg1 : Disk := fun q =>
  if q = chunkPath "./chunks" "video" ".ts" 1 then some [0] else none

/-- A remote series that answers 404 to everything. -/
def remote404 : Remote := fun _ => .response ⟨404, []⟩

/-- **C2, counterexample.**  A run over a directory already holding segment 1,
with the remote answering 404 at segment 2, retrieves segment 1 by finding it
pre-existing (only index 2 is ever fetched, indices 1 and 2 are probed) and
stops at index 2 — yet returns 0, where the claim requires the last
contiguously present index 1: a pre-existing segment does not count as
retrieved in the code (`downloaded_any` is not set on the exists-skip
branch, src/main.py lines 50-53). -/
theorem C2_counterexample :
    (download_chunks remote404 "B/" "video" ".ts" "./chunks" diskWithSeg1 1
        3).map (fun o => (o.result, o.fetched, o.probed)) =
      some (.ok 0, [2], [1, 2]) ∧
    (diskWithSeg1 (chunkPath "./chunks" "video" ".ts" 1)).isSome = true := by
  constructor
  · rfl
  · rfl

/-- **C2, amended.**  For every run of `download_chunks` that stops at the
end-of-series signal (normal return), the returned value is 0 if no segment
was freshly fetched and saved during the run — segments found already present
on disk do not count as retrieved — and otherwise is the terminating index
minus 1.  In particular, a run in which segments are only found pre-existing
and none is fetched returns 0, not the last contiguously present index. -/
theorem C2_amended (remote : Remote) (b p s d : String) (disk : Disk)
    (start fuel : Nat) (out : LoopOutcome) (r : Nat)
    (h : download_chunks remote b p s d disk start fuel = some out)
    (hr : out.result = .ok r) :
    r = (if out.written = [] then 0 else out.finalChunkNumber - 1) := by
  have h1 := loop_result_ok_shape remote b p s d fuel disk start false [] [] []
    out r h hr
  have h2 := loop_finalDA remote b p s d fuel disk start false [] [] [] out h
  rw [h1]
  cases hb : out.finalDownloadedAny with
  | false =>
    have hw : out.written = [] := by
      by_contra hne
      have : out.finalDownloadedAny = true :=
        h2.mpr (Or.inr (by simpa using List.length_pos.mpr hne))
      rw [hb] at this
      cases this
    simp [hw]
  | true =>
    have hw : out.written ≠ [] := by
      intro hnil
      rcases h2.mp hb with hf | hlen
      · cases hf
      · rw [hnil] at hlen
        simp at hlen
    simp [hw]

/-- Witness for C2 (amended) on the pre-existing-segment run: the value 0
matches the amended formula because nothing was freshly fetched. -/
theorem C2_amended_witness :
    0 = (if ([] : List Nat) = [] then 0 else 2 - 1) :=
  C2_amended remote404 "B/" "video" ".ts" "./chunks" diskWithSeg1 1 3
    { result := .ok 0, disk := diskWithSeg1, fetched := [2], probed := [1, 2],
      written := [], finalChunkNumber := 2, finalDownloadedAny := false } 0
    rfl rfl

/-- **C3, counterexample.**  Against the series with segments 1-2 present and
3 missing, a first run over an empty directory returns 2, but a second run
with the same arguments against the directory state the first run left
returns 0 (fetching only index 3): the second run does not yield the same
index. -/
theorem C3_counterexample :
    ((download_chunks remoteDemo "B/" "video" ".ts" "./chunks" diskEmpty 1
        4).bind (fun o1 =>
      (download_chunks remoteDemo "B/" "video" ".ts" "./chunks" o1.disk 1
          4).map (fun o2 => (o1.result, o2.result, o2.fetched)))) =
      some (.ok 2, .ok 0, [3]) := by
  rfl

/-- **C3, amended.**  After a first clean run (N > 0 segments fetched, then a
non-success status), a second run with the same arguments against the
resulting directory issues no fetch for any index whose segment file is on
disk — only the fetch beyond the last known good index is attempted — but it
does not return the same index: the first run returns start + N - 1 while the
second returns 0, because pre-existing segments do not set the
downloaded-any flag. -/
theorem C3_amended (remote : Remote) (b p s d : String) (disk : Disk)
    (start N fuel : Nat) (content : Nat → List Nat) (r : Response)
    (hN : 0 < N)
    (hempty : ∀ i, disk (chunkPath d p s i) = none)
    (hs : ∀ j, j < N → remote (chunkUrl b p s (start + j)) =
      .response ⟨200, content (start + j)⟩)
    (hfail : remote (chunkUrl b p s (start + N)) = .response r)
    (hr : r.status_code ≠ 200)
    (hfuel : N < fuel) :
    ∃ out1 out2,
      download_chunks remote b p s d disk start fuel = some out1 ∧
      out1.result = .ok (start + N - 1) ∧
      download_chunks remote b p s d out1.disk start fuel = some out2 ∧
      out2.result = .ok 0 ∧
      out2.fetched = [start + N] := by
  have hd2 : ((writeSeq d p s content disk start N)
      (chunkPath d p s (start + N))).isSome = false := by
    rw [writeSeq_at_ge d p s content N disk start _ (fun j hj hq => by
      have := chunkPath_inj hq
      omega)]
    rw [hempty (start + N)]
    rfl
  obtain ⟨fuel', hf'⟩ : ∃ f, fuel - N = f + 1 := ⟨fuel - N - 1, by omega⟩
  have hskip : ∀ j, j < N → (((writeSeq d p s content disk start N))
      (chunkPath d p s (start + j))).isSome = true := by
    intro j hj
    rw [writeSeq_at_lt d p s content N disk start j hj]
    rfl
  have hrun2 : download_chunks remote b p s d
      (writeSeq d p s content disk start N) start fuel =
      some { result := .ok 0, disk := writeSeq d p s content disk start N,
             fetched := [start + N],
             probed := rangeFrom start N ++ [start + N],
             written := [], finalChunkNumber := start + N,
             finalDownloadedAny := false } := by
    unfold download_chunks
    rw [loop_skip_run remote b p s d N _ start false [] [] [] fuel hskip
        (by omega), hf',
      loop_stop_status remote b p s d _ (start + N) _ _ _ _ fuel' r hd2 hfail
        hr]
    simp
  unfold download_chunks
  rw [loop_fetch_run remote b p s d content N disk start false [] [] [] fuel
      (fun j _ => hempty (start + j)) hs (by omega),
    hf',
    loop_stop_status remote b p s d _ (start + N) _ _ _ _ fuel' r hd2 hfail hr]
  refine ⟨_, _, rfl, ?_, hrun2, rfl, rfl⟩
  simp [hN]

/-- Witness for C3 (amended) at `start = 1`, `N = 2` on the demo series. -/
theorem C3_amended_witness :
    ∃ out1 out2,
      download_chunks remoteDemo "B/" "video" ".ts" "./chunks" diskEmpty 1 4 =
        some out1 ∧
      out1.result = .ok (1 + 2 - 1) ∧
      download_chunks remoteDemo "B/" "video" ".ts" "./chunks" out1.disk 1 4 =
        some out2 ∧
      out2.result = .ok 0 ∧
      out2.fetched = [1 + 2] :=
  C3_amended remoteDemo "B/" "video" ".ts" "./chunks" diskEmpty 1 2 4
    contentDemo ⟨404, []⟩ (by decide) (fun _ => rfl) (by decide) (by decide)
    (by decide) (by decide)

/-- **C4.**  For every outcome k > 0, the manifest written by
`create_concat_file` contains exactly k lines; the i-th line (1-based) names
segment `{prefix}i{suffix}` for i = 1..k — the lines therefore list the
indices in strictly ascending order with no duplicates, no gaps, and no
entries beyond k; distinct lines are pairwise different. -/
theorem C4_manifest (output_dir chunk_prefix chunk_suffix : String) (k : Nat)
    (hk : 0 < k) :
    ((create_concat_file output_dir k chunk_prefix chunk_suffix).2).length =
      k ∧
    (create_concat_file output_dir k chunk_prefix chunk_suffix).2 =
      (List.range k).map (fun j =>
        "file \x27" ++ chunkName chunk_prefix (j + 1) chunk_suffix ++
          "\x27") ∧
    ((create_concat_file output_dir k chunk_prefix chunk_suffix).2).Nodup := by
  refine ⟨by simp [create_concat_file], rfl, ?_⟩
  simp only [create_concat_file]
  refine List.Nodup.map (fun i j hij => ?_) (List.nodup_range k)
  have := chunkName_inj (string_sandwich_inj hij)
  omega

/-- Witness for C4 at k = 3 with the default naming. -/
theorem C4_manifest_witness :
    ((create_concat_file "./chunks" 3 "video" ".ts").2).length = 3 ∧
    (create_concat_file "./chunks" 3 "video" ".ts").2 =
      (List.range 3).map (fun j =>
        "file \x27" ++ chunkName "video" (j + 1) ".ts" ++ "\x27") ∧
    ((create_concat_file "./chunks" 3 "video" ".ts").2).Nodup :=
  C4_manifest "./chunks" "video" ".ts" 3 (by decide)

/-- **C5.**  For every run of the driver in which the retrieval outcome is 0,
neither the manifest builder nor the merge invoker is invoked: `main` halts
right after the guard of src/main.py lines 167-169. -/
theorem C5_zero_guard (remote : Remote) (disk : Disk) (tool : ToolRun)
    (fuel : Nat) (out : LoopOutcome)
    (h : download_chunks remote "https://SEU_URL_DE_CHUNKS_AQUI/" "video"
      ".ts" "./chunks" disk 1 fuel = some out)
    (h0 : out.result = .ok 0) :
    MainPy.main remote disk tool fuel =
      some { result := .ok (), builtManifest := false,
             invokedMerge := false } := by
  unfold MainPy.main
  rw [h]
  simp [h0]

/-- Witness for C5: the all-404 series gives outcome 0 and a driver run that
builds no manifest and invokes no merge. -/
theorem C5_zero_guard_witness :
    MainPy.main remote404 diskEmpty ⟨0, ""⟩ 1 =
      some { result := .ok (), builtManifest := false,
             invokedMerge := false } :=
  C5_zero_guard remote404 diskEmpty ⟨0, ""⟩ 1
    { result := .ok 0, disk := diskEmpty, fetched := [1], probed := [1],
      written := [], finalChunkNumber := 1, finalDownloadedAny := false }
    rfl rfl

/-- A remote whose transport always fails (connection refused / timeout):
`requests.get` raises. -/
def remoteDown : Remote := fun _ => .transportError

/-- **C6, counterexample.**  A transport-level failure does not terminate the
loop cleanly with a normal return: the very first fetch raising makes
`download_chunks` surface an uncaught exception instead of a return value. -/
theorem C6_counterexample :
    (download_chunks remoteDown "B/" "video" ".ts" "./chunks" diskEmpty 1
        1).map (fun o => o.result) =
      some (.error .requestException) := by
  rfl

/-- **C6, amended.**  After any number of clean successes, a fetch that
yields a non-success status terminates the loop cleanly and surfaces
end-of-series as a normal return value; but a fetch that fails at the
transport level (the HTTP client raising, e.g. connection refused or
timeout) propagates as an uncaught exception, not as a normal return. -/
theorem C6_amended (remote : Remote) (b p s d : String) (disk : Disk)
    (start N fuel : Nat) (content : Nat → List Nat)
    (hempty : ∀ i, disk (chunkPath d p s i) = none)
    (hs : ∀ j, j < N → remote (chunkUrl b p s (start + j)) =
      .response ⟨200, content (start + j)⟩)
    (hfuel : N < fuel) :
    (∀ r : Response, remote (chunkUrl b p s (start + N)) = .response r →
      r.status_code ≠ 200 →
      ∃ out, download_chunks remote b p s d disk start fuel = some out ∧
        ∃ v, out.result = .ok v) ∧
    (remote (chunkUrl b p s (start + N)) = .transportError →
      ∃ out, download_chunks remote b p s d disk start fuel = some out ∧
        out.result = .error .requestException) := by
  have hd2 : ((writeSeq d p s content disk start N)
      (chunkPath d p s (start + N))).isSome = false := by
    rw [writeSeq_at_ge d p s content N disk start _ (fun j hj hq => by
      have := chunkPath_inj hq
      omega)]
    rw [hempty (start + N)]
    rfl
  obtain ⟨fuel', hf'⟩ : ∃ f, fuel - N = f + 1 := ⟨fuel - N - 1, by omega⟩
  constructor
  · intro r hfail hr
    unfold download_chunks
    rw [loop_fetch_run remote b p s d content N disk start false [] [] [] fuel
        (fun j _ => hempty (start + j)) hs (by omega),
      hf',
      loop_stop_status remote b p s d _ (start + N) _ _ _ _ fuel' r hd2 hfail
        hr]
    exact ⟨_, rfl, _, rfl⟩
  · intro hfail
    unfold download_chunks
    rw [loop_fetch_run remote b p s d content N disk start false [] [] [] fuel
        (fun j _ => hempty (start + j)) hs (by omega),
      hf',
      loop_stop_transport remote b p s d _ (start + N) _ _ _ _ fuel' hd2
        hfail]
    exact ⟨_, rfl, rfl⟩

/-- Witness for C6 (amended), transport part, at N = 0: the run raises. -/
theorem C6_amended_witness :
    ∃ out, download_chunks remoteDown "B/" "video" ".ts" "./chunks" diskEmpty
        1 1 = some out ∧
      out.result = .error .requestException :=
  (C6_amended remoteDown "B/" "video" ".ts" "./chunks" diskEmpty 1 0 1
    contentDemo (fun _ => rfl) (fun j hj => absurd hj (Nat.not_lt_zero j))
    (by decide)).2 rfl

/-- What C7 asserts of a failed merge: the failure value carries the tool's
captured diagnostic text. -/
def carriesDiagnostic (r : Except CalledProcessError Unit) (diag : String) :
    Prop :=
  ∃ e, r = .error e ∧ (e.output = some diag ∨ e.stderr = some diag)

/-- **C7, counterexample.**  The tool exits 1 writing "boom" as diagnostic:
the merge does fail (a `CalledProcessError` is raised carrying the exit
status), but the failure carries no captured diagnostic output — the call
`subprocess.run(cmd, check=True)` (src/main.py line 136) captures nothing,
so the exception's `output` and `stderr` are `None`. -/
theorem C7_counterexample :
    (merge_chunks_into_mp4 ⟨1, "boom"⟩ "file_list.txt" "out.mp4").1 ≠
      .ok () ∧
    ¬ carriesDiagnostic
        (merge_chunks_into_mp4 ⟨1, "boom"⟩ "file_list.txt" "out.mp4").1
        "boom" := by
  constructor
  · intro h
    cases h
  · rintro ⟨e, he, hor⟩
    have hx : (merge_chunks_into_mp4 ⟨1, "boom"⟩ "file_list.txt"
        "out.mp4").1 =
        Except.error ⟨1, ["ffmpeg", "-f", "concat", "-safe", "0", "-i",
          "file_list.txt", "-c", "copy", "out.mp4"], none, none⟩ := rfl
    rw [hx] at he
    cases he
    simp at hor

/-- **C7, amended.**  A zero exit of the external tool is surfaced as
success and a non-zero exit as a failure carrying the exit status
(`CalledProcessError.returncode`); the tool's diagnostic text is not
captured into the failure (`output` and `stderr` are `None`) but passes
through to the parent's stderr stream, where it stays visible rather than
being swallowed by the program. -/
theorem C7_amended (tool : ToolRun) (concat_file_path output_mp4 : String) :
    merge_chunks_into_mp4 tool concat_file_path output_mp4 =
      ((if tool.exitCode != 0 then
          .error { returncode := tool.exitCode,
                   cmd := ["ffmpeg", "-f", "concat", "-safe", "0", "-i",
                           concat_file_path, "-c", "copy", output_mp4],
                   output := none, stderr := none }
        else .ok ()), tool.diagnostic) := by
  unfold merge_chunks_into_mp4 subprocess_run
  cases h : (tool.exitCode != 0) <;> simp [h]

/-- **C8, counterexample.**  Persisting segment 1 with body `[7]` is a
direct truncate-then-write at the final path: the first observable state of
the save (right after `open(output_file, "wb")`, src/main.py line 64) has
the file present at the target path with no bytes — a truncated Segment
Record which `os.path.exists` (line 50) of a later run accepts as
complete. -/
theorem C8_counterexample :
    (open_wb diskEmpty (chunkPath "./chunks" "video" ".ts" 1)) ∈
      save_chunk_states diskEmpty (chunkPath "./chunks" "video" ".ts" 1)
        [7] ∧
    ((open_wb diskEmpty (chunkPath "./chunks" "video" ".ts" 1))
        (chunkPath "./chunks" "video" ".ts" 1)).isSome = true ∧
    (open_wb diskEmpty (chunkPath "./chunks" "video" ".ts" 1))
        (chunkPath "./chunks" "video" ".ts" 1) ≠ some [7] := by
  refine ⟨List.mem_cons_self _ _, rfl, ?_⟩
  intro h
  rw [show (open_wb diskEmpty (chunkPath "./chunks" "video" ".ts" 1))
      (chunkPath "./chunks" "video" ".ts" 1) = some [] from rfl] at h
  cases h

/-- **C8, amended.**  The segment write is not atomic: for every filesystem,
target path and non-empty body, the observable state after the open and
before the write completes has the file present at the target path
(satisfying the exists-check a later run uses) while holding truncated
content different from the fetched bytes; only the final state of the save
holds the full body. -/
theorem C8_amended (disk : Disk) (path : String) (content : List Nat)
    (hc : content ≠ []) :
    (open_wb disk path) ∈ save_chunk_states disk path content ∧
    ((open_wb disk path) path).isSome = true ∧
    (open_wb disk path) path ≠ some content ∧
    (save_chunk_states disk path content).getLast? =
      some (save_chunk disk path content) := by
  refine ⟨List.mem_cons_self _ _, ?_, ?_, rfl⟩
  · simp [open_wb, writeBytes]
  · intro h
    simp [open_wb, writeBytes] at h
    exact hc h

/-- Witness for C8 (amended) at the default segment-1 path with body [7]. -/
theorem C8_amended_witness :
    (open_wb diskEmpty (chunkPath "./chunks" "video" ".ts" 1)) ∈
      save_chunk_states diskEmpty (chunkPath "./chunks" "video" ".ts" 1)
        [7] ∧
    ((open_wb diskEmpty (chunkPath "./chunks" "video" ".ts" 1))
        (chunkPath "./chunks" "video" ".ts" 1)).isSome = true ∧
    (open_wb diskEmpty (chunkPath "./chunks" "video" ".ts" 1))
        (chunkPath "./chunks" "video" ".ts" 1) ≠ some [7] ∧
    (save_chunk_states diskEmpty (chunkPath "./chunks" "video" ".ts" 1)
        [7]).getLast? =
      some (save_chunk diskEmpty (chunkPath "./chunks" "video" ".ts" 1)
        [7]) :=
  C8_amended diskEmpty (chunkPath "./chunks" "video" ".ts" 1) [7]
    (by decide)

/-- **C9.**  In every terminating run of `download_chunks`, the probed
indices (checked on disk or fetched) are exactly the contiguous ascending
range from the start index to the terminating index, with no duplicates (no
index probed twice) and nothing beyond; every index below the terminating
one was on disk at the start of the run or fetched successfully, and the
terminating index is the first that is neither — the loop stops at the first
failure without retrying or probing past it. -/
theorem C9_contiguous_probing (remote : Remote) (b p s d : String)
    (disk : Disk) (start fuel : Nat) (out : LoopOutcome)
    (h : download_chunks remote b p s d disk start fuel = some out) :
    start ≤ out.finalChunkNumber ∧
    out.probed = rangeFrom start (out.finalChunkNumber + 1 - start) ∧
    out.probed.Nodup ∧
    (∀ i, start ≤ i → i < out.finalChunkNumber →
      (disk (chunkPath d p s i)).isSome = true ∨
        fetchOk (remote (chunkUrl b p s i)) = true) ∧
    (disk (chunkPath d p s out.finalChunkNumber)).isSome = false ∧
    fetchOk (remote (chunkUrl b p s out.finalChunkNumber)) = false := by
  obtain ⟨h1, h2, h3, h4, h5⟩ := loop_probed_char remote b p s d fuel disk
    disk start false [] [] [] out (fun _ _ => rfl) h
  have h2s : out.probed =
      rangeFrom start (out.finalChunkNumber + 1 - start) := by
    simpa using h2
  refine ⟨h1, h2s, ?_, h3, h4, h5⟩
  rw [h2s]
  exact rangeFrom_nodup start _

/-- Witness for C9 on the demo series (run from an empty directory, start 1,
terminating index 3): probed indices are exactly [1, 2, 3]. -/
theorem C9_contiguous_probing_witness :
    ∃ out, download_chunks remoteDemo "B/" "video" ".ts" "./chunks" diskEmpty
        1 4 = some out ∧
      out.probed = rangeFrom 1 (out.finalChunkNumber + 1 - 1) ∧
      out.probed.Nodup := by
  refine ⟨_, rfl, ?_, ?_⟩
  · exact (C9_contiguous_probing remoteDemo "B/" "video" ".ts" "./chunks"
      diskEmpty 1 4 _ rfl).2.1
  · exact (C9_contiguous_probing remoteDemo "B/" "video" ".ts" "./chunks"
      diskEmpty 1 4 _ rfl).2.2.1

/-- The remote series for C10: segment 0 exists, everything else is 404. -/
def remoteFrom0 : Remote := fun u =>
  if u = chunkUrl "B/" "video" ".ts" 0 then .response ⟨200, [9]⟩
  else .response ⟨404, []⟩

/-- **C10.**  With `start_chunk = 0`, the fetch at index 0 succeeding and the
fetch at index 1 failing, `download_chunks` returns 0 even though segment 0
was downloaded (`written = [0]`); a run that retrieves nothing returns the
same value 0 (`written = []`), so a caller testing the result against 0 — as
`main` does at src/main.py lines 167-169 (see C5) — cannot distinguish the
two outcomes and skips the manifest and merge stages despite a downloaded
segment existing on disk. -/
theorem C10_ambiguous_zero :
    (download_chunks remoteFrom0 "B/" "video" ".ts" "./chunks" diskEmpty 0
        2).map (fun o => (o.result, o.written)) = some (.ok 0, [0]) ∧
    (download_chunks remote404 "B/" "video" ".ts" "./chunks" diskEmpty 1
        1).map (fun o => (o.result, o.written)) = some (.ok 0, []) := by
  constructor
  · rfl
  · rfl
